import Mathlib

/-
Shallow embedding of neurokernel/pattern.py: the port attribute table
(class Interface) and the connectivity pattern (class Pattern).

Port identifiers are the concrete hierarchical identifiers produced by the
external addressing collaborator (plsel.PathLikeSelector); we embed each
identifier as an opaque canonical string and a resolved selector as the
ordered list of identifiers it comprises.  pandas DataFrames keyed by a
MultiIndex of identifiers become association lists from identifier to an
attribute record; an unset cell (NaN) becomes none.  The canonical
(level-wise lexicographic) ordering that pandas sort maintains is embedded
as a lexicographic ordering on identifier strings.
-/

abbrev PortId := String

/-- Lexicographic comparison of character lists by code point, the canonical
ordering on embedded identifiers. -/
def charListLt : List Char → List Char → Bool
  | [], [] => false
  | [], _ :: _ => true
  | _ :: _, [] => false
  | a :: as, b :: bs =>
    if a.val.toNat < b.val.toNat then true
    else if b.val.toNat < a.val.toNat then false
    else charListLt as bs

def pidLt (a b : PortId) : Bool := charListLt a.data b.data

/-- Attribute cell values: the tables store numbers (e.g. the conn flag) and
free-form strings (e.g. type tags). -/
inductive Attr
  | int (n : Int)
  | str (s : String)
deriving DecidableEq

/-- One row of the port attribute table: the three mandatory columns
interface, io and type of class Interface (pattern.py line 84); a none cell
is pandas NaN (unset). -/
structure PortRec where
  interface : Option Nat
  ioAttr : Option String
  ptype : Option String
deriving DecidableEq

/-- The port attribute table (class Interface): rows keyed by identifier. -/
structure Interface where
  table : List (PortId × PortRec)
deriving DecidableEq

def Interface.keys (i : Interface) : List PortId := i.table.map Prod.fst

/-- Rows of the table matched by a resolved selector
(Interface.__getitem__, via sel.select). -/
def Interface.selRows (i : Interface) (ids : List PortId) : List (PortId × PortRec) :=
  i.table.filter (fun r => ids.contains r.1)

/-- Interface.which_int: the set of interface identifiers of the ports
matched by a selector, unset entries discarded (pattern.py lines 480-503).
Embedded as the list of set entries; set comparison is listSetEq. -/
def Interface.whichInt (i : Interface) (ids : List PortId) : List Nat :=
  (i.selRows ids).filterMap (fun r => r.2.interface)

/-- Equality of python sets represented as lists of their elements. -/
def listSetEq (u v : List Nat) : Bool :=
  u.all (fun x => v.contains x) && v.all (fun x => u.contains x)

/-- Interface.get_interface: the sub-table of rows whose interface attribute
equals the given identifier (pattern.py lines 392-408). -/
def Interface.getInterface (i : Interface) (g : Nat) : Interface :=
  ⟨i.table.filter (fun r => r.2.interface == some g)⟩

/-- Interface.data_select: restrict rows by a boolean predicate over the
attribute record (pattern.py lines 208-236). -/
def Interface.dataSelect (i : Interface) (f : PortRec → Bool) : Interface :=
  ⟨i.table.filter (fun r => f r.2)⟩

/-- Interface.ports: identifiers comprised by one interface
(pattern.py lines 460-478). -/
def Interface.ports (i : Interface) (g : Nat) : List PortId :=
  (i.getInterface g).keys

/-- Interface.interface_ids: the interface identifiers present in the table
(pattern.py lines 173-179); NaN entries can never equal an integer
identifier, so only set entries are kept. -/
def Interface.interfaceIds (i : Interface) : List Nat :=
  i.table.filterMap (fun r => r.2.interface)

/-- The io inversion applied by Interface.is_compatible
(pattern.py lines 359-360): in and out swap, anything else is unchanged. -/
def ioFlip : Option String → Option String
  | some s => if s = "in" then some "out" else if s = "out" then some "in" else some s
  | none => none

/-- Whether every row of the table has its io attribute set to in or out
(the guard of Interface.is_compatible, pattern.py lines 354-356). -/
def Interface.ioAllSet (i : Interface) : Bool :=
  i.table.all (fun r => r.2.ioAttr == some "in" || r.2.ioAttr == some "out")

/-- Interface.is_compatible (pattern.py lines 325-369): raises unless every
row of both whole tables has io set; then compares the index of interface a
with the index of interface b (order-sensitive pandas Index.equals) and the
io column of interface a, inverted, with the io column of interface b. -/
def Interface.is_compatible (self : Interface) (a : Nat) (i : Interface) (b : Nat) :
    Except String Bool :=
  if self.ioAllSet && i.ioAllSet then
    let rowsA := self.table.filter (fun r => r.2.interface == some a)
    let rowsB := i.table.filter (fun r => r.2.interface == some b)
    if rowsA.map Prod.fst = rowsB.map Prod.fst ∧
       rowsA.map (fun r => ioFlip r.2.ioAttr) = rowsB.map (fun r => r.2.ioAttr) then
      Except.ok true
    else
      Except.ok false
  else
    Except.error "All ports must have their io attribute set."

def rowLe (r1 r2 : PortId × PortRec) : Prop := pidLt r2.1 r1.1 = false

instance : DecidableRel rowLe := fun r1 r2 =>
  inferInstanceAs (Decidable (pidLt r2.1 r1.1 = false))

/-- Modelled from the spec: the selector resolution inside
Interface.__setitem__ (pattern.py lines 112-160) is performed by the external
addressing collaborator (plsel get_index / make_index), whose code is not
part of this repository.  Per the spec (section 4.1 Write), a write
overwrites existing rows in place, appends rows for new identifiers with
unset columns defaulting to empty, and re-establishes canonical ordering
after an append.  This models the single-column write used with the io
column. -/
def Interface.ioWrite (i : Interface) (ids : List PortId) (v : String) : Interface :=
  let updated := i.table.map (fun r =>
    if ids.contains r.1 then (r.1, { r.2 with ioAttr := some v }) else r)
  let fresh := (ids.filter (fun s => !(i.keys.contains s))).map
    (fun s => (s, PortRec.mk none (some v) none))
  if fresh.isEmpty then ⟨updated⟩ else ⟨List.insertionSort rowLe (updated ++ fresh)⟩

/-- The per-selector interface-identifier assignment performed by
Pattern.__init__ (pattern.py lines 603-604); every assigned identifier is
already a row of the table, so the write is in place. -/
def Interface.writeGroup (i : Interface) (ids : List PortId) (g : Nat) : Interface :=
  ⟨i.table.map (fun r =>
    if ids.contains r.1 then (r.1, { r.2 with interface := some g }) else r)⟩

/-- One row of the pattern's connection DataFrame: the edge key
(from-levels, to-levels) plus its attribute cells; a column absent from
attrs is pandas NaN (unset). -/
structure Edge where
  src : PortId
  dst : PortId
  attrs : List (String × Attr)
deriving DecidableEq

def Edge.key (e : Edge) : PortId × PortId := (e.src, e.dst)

def keyLt (k1 k2 : PortId × PortId) : Bool :=
  pidLt k1.1 k2.1 || (k1.1 == k2.1 && pidLt k1.2 k2.2)

def edgeLe (e1 e2 : Edge) : Prop := keyLt e2.key e1.key = false

instance : DecidableRel edgeLe := fun e1 e2 =>
  inferInstanceAs (Decidable (keyLt e2.key e1.key = false))

/-- The connectivity pattern (class Pattern): the internal Interface over
the union of the construction selectors, the connection data columns, and
the edge table. -/
structure Pattern where
  interface : Interface
  columns : List String
  edges : List Edge
deriving DecidableEq

def Pattern.edgeKeys (p : Pattern) : List (PortId × PortId) := p.edges.map Edge.key

/-- Pattern.in_interfaces (pattern.py lines 820-828): true when the selector
matches at least one row of the pattern's interface table. -/
def Pattern.in_interfaces (p : Pattern) (ids : List PortId) : Bool :=
  decide (0 < (p.interface.selRows ids).length)

/-- Modelled from the spec: plsel are_disjoint, consumed by Pattern.__init__
(pattern.py line 590), is external; per the spec, selectors are disjoint
when no identifier comprised by one selector is in any other selector. -/
def pairwiseDisjoint : List (List PortId) → Bool
  | [] => true
  | s :: rest => rest.all (fun t => s.all (fun x => !(t.contains x))) && pairwiseDisjoint rest

/-- Pattern.__init__ (pattern.py lines 584-616): assert the selectors
disjoint, build one Interface over their union (rejecting duplicate
identifiers, Interface.__validate_index__ lines 97-104), assign the
interface attribute of each selector's ports to its position, and start
with an empty edge table. -/
def Pattern.make (selectors : List (List PortId)) (columns : List String) :
    Except String Pattern :=
  if pairwiseDisjoint selectors = false then
    Except.error "selectors are not disjoint"
  else
    let allIds := selectors.flatMap (fun s => s)
    if decide allIds.Nodup = false then
      Except.error "Duplicate interface index entries detected."
    else
      let base : Interface := ⟨allIds.map (fun s => (s, PortRec.mk none none none))⟩
      let intf := selectors.enum.foldl (fun acc is => acc.writeGroup is.2 is.1) base
      Except.ok ⟨intf, columns, []⟩

/-- The assigned value of a connection write, following the three accepted
shapes of Pattern.__setitem__ (pattern.py lines 892-910): a scalar, a dict,
or an iterable of values. -/
inductive Value
  | scalar (a : Attr)
  | mapping (m : List (String × Attr))
  | ordered (l : List Attr)
deriving DecidableEq

/-- The value coercion of Pattern.__setitem__ (pattern.py lines 892-910):
with explicit attribute names (len(key) > 2) a scalar broadcasts to all of
them, a dict passes through, and an iterable no longer than the names zips
against them; without explicit names the data columns take their place and
a scalar targets the first data column.  none is the raised ValueError. -/
def coerceValue (value : Value) (extraCols : List String) (dataCols : List String) :
    Option (List (String × Attr)) :=
  if 0 < extraCols.length then
    match value with
    | Value.scalar a => some (extraCols.map (fun c => (c, a)))
    | Value.mapping m => some m
    | Value.ordered l => if l.length ≤ extraCols.length then some (extraCols.zip l) else none
  else
    match value with
    | Value.scalar a =>
      match dataCols with
      | [] => none
      | c :: _ => some [(c, a)]
    | Value.mapping m => some m
    | Value.ordered l => if l.length ≤ dataCols.length then some (dataCols.zip l) else none

/-- The key of a connection write p[src_sel, dst_sel, col...] = value:
the two resolved selectors and the optional explicit attribute names. -/
structure WriteKey where
  src : List PortId
  dst : List PortId
  cols : List String
deriving DecidableEq

def mkEdge (k : PortId × PortId) (data : List (String × Attr)) : Edge :=
  ⟨k.1, k.2, data⟩

/-- The edge keys implied by a connection write: the product of the source
and destination identifier lists (the + selector combinator). -/
def impliedKeys (k : WriteKey) : List (PortId × PortId) :=
  k.src.flatMap (fun s => k.dst.map (fun d => (s, d)))

/-- Set one attribute cell of an edge row. -/
def attrSet (attrs : List (String × Attr)) (c : String) (a : Attr) : List (String × Attr) :=
  if attrs.any (fun q => q.1 == c) then
    attrs.map (fun q => if q.1 == c then (c, a) else q)
  else attrs ++ [(c, a)]

/-- The in-place branch of Pattern.__setitem__ (pattern.py lines 914-916):
for each data entry, self.data[col].ix[idx] = v sets the column on the
matched rows; a column that is not a data column raises KeyError, leaving
the columns already written applied. -/
def applyFound (implied : List (PortId × PortId)) (cols : List String) :
    List (String × Attr) → List Edge → Option String × List Edge
  | [], edges => (none, edges)
  | (c, a) :: rest, edges =>
    if cols.contains c then
      applyFound implied cols rest
        (edges.map (fun e =>
          if implied.contains e.key then ⟨e.src, e.dst, attrSet e.attrs c a⟩ else e))
    else (some "column is not a data column", edges)

/-- Pattern.__setitem__ (pattern.py lines 849-921).  The write asserts both
selectors match interface ports and that their interface-identifier sets
differ; the joined selector src+dst comprises the product of the two
identifier lists (per the documented semantics of the + selector
combinator, cf. from_product and the doctests at lines 937-940); the io
attributes of the endpoints are tagged before the value is coerced; existing
rows are updated in place, otherwise new rows are appended and the table
re-sorted.  The python object is mutated in place, so the result carries
the state at the moment an exception is raised together with the error. -/
def Pattern.setitem (p : Pattern) (k : WriteKey) (v : Value) : Option String × Pattern :=
  if p.in_interfaces k.src = false then (some "source selector not in interfaces", p)
  else if p.in_interfaces k.dst = false then (some "destination selector not in interfaces", p)
  else if listSetEq (p.interface.whichInt k.src) (p.interface.whichInt k.dst) = true then
    (some "source and destination interfaces are the same", p)
  else
    let found := (impliedKeys k).all (fun kk => p.edgeKeys.contains kk)
    let p1 : Pattern := ⟨(p.interface.ioWrite k.src "in").ioWrite k.dst "out", p.columns, p.edges⟩
    match coerceValue v k.cols p.columns with
    | none => (some "cannot assign specified value", p1)
    | some data =>
      if found then
        let r := applyFound (impliedKeys k) p1.columns data p1.edges
        (r.1, ⟨p1.interface, p1.columns, r.2⟩)
      else
        (none, ⟨p1.interface,
                p1.columns ++ (data.map Prod.fst).filter (fun c => !(p1.columns.contains c)),
                List.insertionSort edgeLe
                  (p1.edges ++ (impliedKeys k).map (fun kk => mkEdge kk data))⟩)

/-- Pattern.__validate_index__ (pattern.py lines 798-814): rejects duplicate
edge keys, then rejects fan-in (duplicate destination identifiers).  Note
that Pattern.__setitem__ never invokes it. -/
def Pattern.validateIndex (keys : List (PortId × PortId)) : Except String Unit :=
  if decide keys.Nodup = false then Except.error "Duplicate pattern entries detected."
  else if decide (keys.map Prod.snd).Nodup = false then
    Except.error "Fan-in pattern entries detected."
  else Except.ok ()

/-- Pattern.clear (pattern.py lines 1066-1072): drop every row of the edge
table; the interface table is untouched (the XXX comment records that the
interface data structure is not cleared). -/
def Pattern.clear (p : Pattern) : Pattern :=
  ⟨p.interface, p.columns, p.edges.filter (fun e => !(p.edgeKeys.contains e.key))⟩

/-- The conn filter of Pattern.is_connected (pattern.py line 1095):
self.data[self.data[conn] != 0].  In pandas an unset cell (NaN) compares
not-equal to 0, so only a cell holding exactly the number 0 is excluded. -/
def connNonzero (e : Edge) : Bool := !(e.attrs.lookup "conn" == some (Attr.int 0))

/-- Pattern.is_connected (pattern.py lines 1074-1104): assert the two
interface identifiers differ and are present, then scan the non-zero edges
for one whose source is a port of from_int and whose destination is a port
of to_int. -/
def Pattern.is_connected (p : Pattern) (fromInt toInt : Nat) : Except String Bool :=
  if fromInt = toInt then Except.error "from and to interfaces must differ"
  else if (p.interface.interfaceIds.contains fromInt &&
           p.interface.interfaceIds.contains toInt) = false then
    Except.error "interface identifier not present"
  else
    Except.ok ((p.edges.filter connNonzero).any (fun e =>
      (p.interface.getInterface fromInt).keys.contains e.src &&
      (p.interface.getInterface toInt).keys.contains e.dst))

/-- OrderedDict.fromkeys(...).keys() (pattern.py line 993): remove duplicate
entries keeping the first occurrence of each. -/
def dedupFirst {α : Type} [DecidableEq α] : List α → List α
  | [] => []
  | x :: xs => x :: dedupFirst (xs.filter (fun y => !(y == x)))
termination_by l => l.length
decreasing_by
  simp only [List.length_cons]
  exact Nat.lt_succ_of_le (List.length_filter_le _ _)

/-- The destination port identifiers selected by src_idx (pattern.py lines
964-975): the destination interface, optionally filtered by type, then
optionally restricted by the dest_ports selector. -/
def srcIdxToIds (p : Pattern) (destInt : Nat) (destType : Option String)
    (destPorts : Option (List PortId)) : List PortId :=
  let toInt := match destType with
    | none => p.interface.getInterface destInt
    | some t => (p.interface.getInterface destInt).dataSelect (fun r => r.ptype == some t)
  match destPorts with
  | none => toInt.keys
  | some sel => (toInt.selRows sel).map Prod.fst

/-- The source port identifiers selected by src_idx (pattern.py lines
977-984): the source interface, optionally filtered by type. -/
def srcIdxFromIds (p : Pattern) (srcInt : Nat) (srcType : Option String) : List PortId :=
  match srcType with
  | none => (p.interface.getInterface srcInt).keys
  | some t => ((p.interface.getInterface srcInt).dataSelect (fun r => r.ptype == some t)).keys

/-- The edge rows of the pattern kept by src_idx (pattern.py lines 986-989):
those whose source and destination ports were both selected. -/
def srcIdxRows (p : Pattern) (srcInt destInt : Nat)
    (srcType destType : Option String) (destPorts : Option (List PortId)) : List Edge :=
  p.edges.filter (fun e =>
    (srcIdxFromIds p srcInt srcType).contains e.src &&
    (srcIdxToIds p destInt destType destPorts).contains e.dst)

/-- Pattern.src_idx (pattern.py lines 930-993): assert the interface
identifiers differ and are present; filter the destination interface by
type and by the optional destination selector, filter the source interface
by type, keep the edges between the two filtered port sets, and return
their source identifiers with duplicates removed, first occurrence first. -/
def Pattern.src_idx (p : Pattern) (srcInt destInt : Nat)
    (srcType destType : Option String) (destPorts : Option (List PortId)) :
    Except String (List PortId) :=
  if srcInt = destInt then Except.error "source and destination interfaces must differ"
  else if (p.interface.interfaceIds.contains srcInt &&
           p.interface.interfaceIds.contains destInt) = false then
    Except.error "interface identifier not present"
  else
    Except.ok (dedupFirst
      ((srcIdxRows p srcInt destInt srcType destType destPorts).map Edge.src))

/-- Pattern.from_product (pattern.py lines 710-752) via Pattern._create_from
(lines 654-708) with comb_op +: build the empty pattern from the selectors,
replace its edge table by the index made from (from_sel)+(to_sel) - the
cross product of the two identifier lists, duplicate-checked per the spec
of make_index - and tag from_sel ports io=in, to_sel ports io=out. -/
def Pattern.from_product (selectors : List (List PortId)) (fromSel toSel : List PortId)
    (data : List (String × Attr)) (columns : List String) : Except String Pattern :=
  match Pattern.make selectors columns with
  | Except.error m => Except.error m
  | Except.ok p =>
    let idx := fromSel.flatMap (fun s => toSel.map (fun d => (s, d)))
    if decide idx.Nodup = false then Except.error "Duplicate pattern entries detected."
    else
      Except.ok ⟨(p.interface.ioWrite fromSel "in").ioWrite toSel "out", columns,
                 idx.map (fun kk => mkEdge kk data)⟩

/-- A pattern over identifiers a0 (interface 0) and x0, x1 (interface 1),
as produced by Pattern.make [[a0], [x0, x1]]. -/
def Pdemo : Pattern :=
  ⟨⟨[("a0", PortRec.mk (some 0) none none),
     ("x0", PortRec.mk (some 1) none none),
     ("x1", PortRec.mk (some 1) none none)]⟩, ["conn"], []⟩

/-- A pattern over a0 (interface 0) and b0 (interface 1) carrying the single
connection a0 -> b0 with conn = 1. -/
def Pconn : Pattern :=
  ⟨⟨[("a0", PortRec.mk (some 0) (some "in") none),
     ("b0", PortRec.mk (some 1) (some "out") none)]⟩, ["conn"],
   [⟨"a0", "b0", [("conn", Attr.int 1)]⟩]⟩

/-- The pattern produced by Pattern.make [[a0, a1], [b0]]. -/
def Pfan : Pattern :=
  ⟨⟨[("a0", PortRec.mk (some 0) none none),
     ("a1", PortRec.mk (some 0) none none),
     ("b0", PortRec.mk (some 1) none none)]⟩, ["conn"], []⟩

/-- First write on Pfan: a0 -> b0 with conn = 1. -/
def fanW1 : Option String × Pattern :=
  Pattern.setitem Pfan ⟨["a0"], ["b0"], []⟩ (Value.scalar (Attr.int 1))

/-- Second write: a1 -> b0 with conn = 1, a fan-in onto b0. -/
def fanW2 : Option String × Pattern :=
  Pattern.setitem fanW1.2 ⟨["a1"], ["b0"], []⟩ (Value.scalar (Attr.int 1))

/-- The interface tables produced by Pattern.from_product
[[a0], [b0]] with from_sel [a0], to_sel [b0] and data conn = 1. -/
def Wprod : Pattern :=
  ⟨⟨[("a0", PortRec.mk (some 0) (some "in") none),
     ("b0", PortRec.mk (some 1) (some "out") none)]⟩, ["conn"],
   [⟨"a0", "b0", [("conn", Attr.int 1)]⟩]⟩

/-- A write on Pdemo whose source selector comprises a0 and x0 (interfaces
0 and 1) and whose destination selector comprises x0 (interface 1): the
interface-identifier sets differ, so the write is accepted. -/
def c2w : Option String × Pattern :=
  Pattern.setitem Pdemo ⟨["a0", "x0"], ["x0"], []⟩ (Value.scalar (Attr.int 1))

/-- The same overlapping write with a value that cannot be coerced onto the
single data column (two ordered values, one column). -/
def c10w : Option String × Pattern :=
  Pattern.setitem Pdemo ⟨["a0", "x0"], ["x0"], []⟩ (Value.ordered [Attr.int 1, Attr.int 2])

/-- A two-port attribute table whose single interface 0 has p0 as input and
p1 as output. -/
def IcompatA : Interface :=
  ⟨[("p0", PortRec.mk (some 0) (some "in") none),
    ("p1", PortRec.mk (some 0) (some "out") none)]⟩

/-- A two-port attribute table whose single interface 1 carries the opposite
directions: p0 out, p1 in. -/
def IcompatB : Interface :=
  ⟨[("p0", PortRec.mk (some 1) (some "out") none),
    ("p1", PortRec.mk (some 1) (some "in") none)]⟩

theorem listContainsIff {α : Type} [BEq α] [LawfulBEq α] (l : List α) (a : α) :
    l.contains a = true ↔ a ∈ l := by
  exact List.elem_iff

theorem charListLt_irrefl (l : List Char) : charListLt l l = false := by
  induction l with
  | nil => rfl
  | cons a as ih => simp [charListLt, ih]

theorem charListLt_asymm :
    ∀ l1 l2, charListLt l1 l2 = true → charListLt l2 l1 = true → False := by
  intro l1
  induction l1 with
  | nil =>
    intro l2 h1 h2
    cases l2 with
    | nil => simp [charListLt] at h1
    | cons b bs => simp [charListLt] at h2
  | cons a as ih =>
    intro l2 h1 h2
    cases l2 with
    | nil => simp [charListLt] at h1
    | cons b bs =>
      rcases Nat.lt_trichotomy a.val.toNat b.val.toNat with h | h | h
      · have hn : ¬ b.val.toNat < a.val.toNat := by omega
        simp [charListLt, h, hn] at h2
      · simp [charListLt, h, Nat.lt_irrefl] at h1 h2
        exact ih bs h1 h2
      · have hn : ¬ a.val.toNat < b.val.toNat := by omega
        simp [charListLt, h, hn] at h1

theorem pidLt_irrefl (a : PortId) : pidLt a a = false := charListLt_irrefl _

theorem pidLt_asymm {a b : PortId} (h1 : pidLt a b = true) (h2 : pidLt b a = true) : False :=
  charListLt_asymm _ _ h1 h2

theorem dedupFirst_mem {α : Type} [DecidableEq α] (a : α) (l : List α) :
    a ∈ dedupFirst l ↔ a ∈ l := by
  induction l using dedupFirst.induct with
  | case1 => simp [dedupFirst]
  | case2 x xs ih =>
    rw [dedupFirst]
    simp only [List.mem_cons, ih, List.mem_filter, Bool.not_eq_eq_eq_not, Bool.not_true,
      beq_eq_false_iff_ne, ne_eq]
    by_cases hax : a = x
    · simp [hax]
    · simp [hax]

theorem dedupFirst_nodup {α : Type} [DecidableEq α] (l : List α) :
    (dedupFirst l).Nodup := by
  induction l using dedupFirst.induct with
  | case1 => simp [dedupFirst]
  | case2 x xs ih =>
    rw [dedupFirst]
    refine List.Nodup.cons ?_ ih
    intro hmem
    have hx : x ∈ xs.filter (fun y => !(y == x)) := (dedupFirst_mem _ _).mp hmem
    simp at hx

theorem dedupFirst_sublist {α : Type} [DecidableEq α] (l : List α) :
    (dedupFirst l).Sublist l := by
  induction l using dedupFirst.induct with
  | case1 => simp [dedupFirst]
  | case2 x xs ih =>
    rw [dedupFirst]
    exact List.Sublist.cons₂ x (ih.trans (List.filter_sublist xs))

theorem filter_indexOf_mono {α : Type} [DecidableEq α] (q : α → Bool) (a b : α) :
    ∀ xs : List α, a ∈ xs.filter q → b ∈ xs.filter q →
      (xs.filter q).indexOf a < (xs.filter q).indexOf b → xs.indexOf a < xs.indexOf b := by
  intro xs
  induction xs with
  | nil => intro ha; simp at ha
  | cons w ws ih =>
    intro ha hb h
    by_cases hqw : q w = true
    · rw [List.filter_cons_of_pos hqw] at ha hb h
      by_cases haw : a = w
      · subst haw
        have hba : b ≠ a := by
          intro e
          subst e
          exact absurd h (Nat.lt_irrefl _)
        rw [List.indexOf_cons_self]
        rw [List.indexOf_cons_ne _ (Ne.symm hba)]
        exact Nat.succ_pos _
      · by_cases hbw : b = w
        · subst hbw
          rw [List.indexOf_cons_self] at h
          exact absurd h (Nat.not_lt_zero _)
        · have ha' : a ∈ ws.filter q := by
            rcases List.mem_cons.mp ha with e | m
            · exact absurd e haw
            · exact m
          have hb' : b ∈ ws.filter q := by
            rcases List.mem_cons.mp hb with e | m
            · exact absurd e hbw
            · exact m
          rw [List.indexOf_cons_ne _ (Ne.symm haw), List.indexOf_cons_ne _ (Ne.symm hbw)] at h
          rw [List.indexOf_cons_ne _ (Ne.symm haw), List.indexOf_cons_ne _ (Ne.symm hbw)]
          exact Nat.succ_lt_succ (ih ha' hb' (Nat.lt_of_succ_lt_succ h))
    · rw [List.filter_cons_of_neg hqw] at ha hb h
      have hqa : q a = true := (List.mem_filter.mp ha).2
      have hqb : q b = true := (List.mem_filter.mp hb).2
      have hwa : w ≠ a := by
        intro e
        subst e
        exact hqw hqa
      have hwb : w ≠ b := by
        intro e
        subst e
        exact hqw hqb
      rw [List.indexOf_cons_ne _ hwa, List.indexOf_cons_ne _ hwb]
      exact Nat.succ_lt_succ (ih ha hb h)

theorem dedupFirst_pairwise {α : Type} [DecidableEq α] (l : List α) :
    (dedupFirst l).Pairwise (fun a b => l.indexOf a < l.indexOf b) := by
  induction l using dedupFirst.induct with
  | case1 => simp [dedupFirst]
  | case2 x xs ih =>
    rw [dedupFirst]
    refine List.Pairwise.cons ?_ ?_
    · intro b hb
      have hbf : b ∈ xs.filter (fun y => !(y == x)) := (dedupFirst_mem _ _).mp hb
      have hbx : b ≠ x := by
        have := (List.mem_filter.mp hbf).2
        simpa using this
      rw [List.indexOf_cons_self, List.indexOf_cons_ne _ (Ne.symm hbx)]
      exact Nat.succ_pos _
    · refine List.Pairwise.imp_of_mem ?_ ih
      intro a b haMem hbMem hip
      have haf : a ∈ xs.filter (fun y => !(y == x)) := (dedupFirst_mem _ _).mp haMem
      have hbf : b ∈ xs.filter (fun y => !(y == x)) := (dedupFirst_mem _ _).mp hbMem
      have hax : a ≠ x := by
        have := (List.mem_filter.mp haf).2
        simpa using this
      have hbx : b ≠ x := by
        have := (List.mem_filter.mp hbf).2
        simpa using this
      rw [List.indexOf_cons_ne _ (Ne.symm hax), List.indexOf_cons_ne _ (Ne.symm hbx)]
      exact Nat.succ_lt_succ (filter_indexOf_mono _ _ _ xs haf hbf hip)

theorem ioWrite_mem_src (i : Interface) (ids : List PortId) (v : String)
    (r : PortId × PortRec) (hr : r ∈ (i.ioWrite ids v).table) :
    (∃ r0 ∈ i.table, r0.1 ∉ ids ∧ r = r0) ∨
    (∃ r0 ∈ i.table, r0.1 ∈ ids ∧ r = (r0.1, { r0.2 with ioAttr := some v })) ∨
    (r.1 ∈ ids ∧ r.2 = PortRec.mk none (some v) none) := by
  simp only [Interface.ioWrite] at hr
  have hsplit : r ∈ i.table.map (fun r =>
      if ids.contains r.1 then (r.1, { r.2 with ioAttr := some v }) else r) ∨
      r ∈ (ids.filter (fun s => !(i.keys.contains s))).map
        (fun s => (s, PortRec.mk none (some v) none)) := by
    split at hr
    · exact Or.inl hr
    · rcases List.mem_append.mp (((List.perm_insertionSort rowLe _).mem_iff).mp hr) with h | h
      · exact Or.inl h
      · exact Or.inr h
  rcases hsplit with h | h
  · obtain ⟨r0, hr0, he⟩ := List.mem_map.mp h
    by_cases hin : ids.contains r0.1 = true
    · rw [if_pos hin] at he
      exact Or.inr (Or.inl ⟨r0, hr0, (listContainsIff _ _).mp hin, he.symm⟩)
    · rw [if_neg hin] at he
      refine Or.inl ⟨r0, hr0, ?_, he.symm⟩
      intro hmem
      exact hin ((listContainsIff _ _).mpr hmem)
  · obtain ⟨s, hs, he⟩ := List.mem_map.mp h
    have hs' : s ∈ ids := (List.mem_filter.mp hs).1
    refine Or.inr (Or.inr ?_)
    rw [← he]
    exact ⟨hs', rfl⟩

theorem ioWrite_io_of_mem (i : Interface) (ids : List PortId) (v : String)
    (r : PortId × PortRec) (hr : r ∈ (i.ioWrite ids v).table) (hid : r.1 ∈ ids) :
    r.2.ioAttr = some v := by
  rcases ioWrite_mem_src i ids v r hr with ⟨r0, _, hnot, he⟩ | ⟨r0, _, _, he⟩ | ⟨_, he⟩
  · rw [he] at hid
    exact absurd hid hnot
  · rw [he]
  · rw [he]

theorem ioWrite_preserved_of_not_mem (i : Interface) (ids : List PortId) (v : String)
    (r : PortId × PortRec) (hr : r ∈ (i.ioWrite ids v).table) (hid : r.1 ∉ ids) :
    r ∈ i.table := by
  rcases ioWrite_mem_src i ids v r hr with ⟨r0, h0, _, he⟩ | ⟨r0, _, hmem, he⟩ | ⟨hmem, _⟩
  · rw [he]
    exact h0
  · rw [he] at hid
    exact absurd hmem hid
  · exact absurd hmem hid

theorem ioWrite_covers (i : Interface) (ids : List PortId) (v : String)
    (s : PortId) (hs : s ∈ ids) : s ∈ (i.ioWrite ids v).keys := by
  simp only [Interface.ioWrite, Interface.keys]
  have hupd : s ∈ i.keys →
      s ∈ (i.table.map (fun r =>
        if ids.contains r.1 then (r.1, { r.2 with ioAttr := some v }) else r)).map Prod.fst := by
    intro hk
    obtain ⟨r0, hr0, he⟩ := List.mem_map.mp hk
    refine List.mem_map.mpr ⟨_, List.mem_map.mpr ⟨r0, hr0, rfl⟩, ?_⟩
    by_cases hin : ids.contains r0.1 = true
    · rw [if_pos hin]
      exact he
    · rw [if_neg hin]
      exact he
  split
  · rename_i hemp
    have hfil : ids.filter (fun s => !(i.keys.contains s)) = [] := by
      have := List.isEmpty_iff.mp hemp
      exact List.map_eq_nil_iff.mp this
    have hk : s ∈ i.keys := by
      by_contra hnk
      have : s ∈ ids.filter (fun s => !(i.keys.contains s)) := by
        refine List.mem_filter.mpr ⟨hs, ?_⟩
        simp only [Bool.not_eq_true']
        exact (Bool.not_eq_true _).mp (fun hc => hnk ((listContainsIff _ _).mp hc))
      rw [hfil] at this
      simp at this
    exact hupd hk
  · have hperm := (List.perm_insertionSort rowLe
      ((i.table.map (fun r =>
        if ids.contains r.1 then (r.1, { r.2 with ioAttr := some v }) else r)) ++
       ((ids.filter (fun s => !(i.keys.contains s))).map
        (fun s => (s, PortRec.mk none (some v) none)))))
    refine List.mem_map.mpr ?_
    by_cases hk : s ∈ i.keys
    · obtain ⟨rr, hrr, he⟩ := List.mem_map.mp (hupd hk)
      exact ⟨rr, hperm.mem_iff.mpr (List.mem_append.mpr (Or.inl hrr)), he⟩
    · refine ⟨(s, PortRec.mk none (some v) none),
        hperm.mem_iff.mpr (List.mem_append.mpr (Or.inr ?_)), rfl⟩
      refine List.mem_map.mpr ⟨s, List.mem_filter.mpr ⟨hs, ?_⟩, rfl⟩
      simp only [Bool.not_eq_true']
      exact (Bool.not_eq_true _).mp (fun hc => hk ((listContainsIff _ _).mp hc))

theorem ioWrite_keeps_keys (i : Interface) (ids : List PortId) (v : String)
    (s : PortId) (hs : s ∈ i.keys) : s ∈ (i.ioWrite ids v).keys := by
  simp only [Interface.ioWrite, Interface.keys]
  obtain ⟨r0, hr0, he⟩ := List.mem_map.mp hs
  have hupd : s ∈ (i.table.map (fun r =>
      if ids.contains r.1 then (r.1, { r.2 with ioAttr := some v }) else r)).map Prod.fst := by
    refine List.mem_map.mpr ⟨_, List.mem_map.mpr ⟨r0, hr0, rfl⟩, ?_⟩
    by_cases hin : ids.contains r0.1 = true
    · rw [if_pos hin]
      exact he
    · rw [if_neg hin]
      exact he
  split
  · exact hupd
  · obtain ⟨rr, hrr, he'⟩ := List.mem_map.mp hupd
    refine List.mem_map.mpr ⟨rr, ?_, he'⟩
    exact (List.perm_insertionSort rowLe _).mem_iff.mpr (List.mem_append.mpr (Or.inl hrr))

theorem applyFound_keys (implied : List (PortId × PortId)) (cols : List String) :
    ∀ (data : List (String × Attr)) (edges : List Edge),
      (applyFound implied cols data edges).2.map Edge.key = edges.map Edge.key := by
  intro data
  induction data with
  | nil => intro edges; rfl
  | cons ca rest ih =>
    intro edges
    obtain ⟨c, a⟩ := ca
    by_cases hc : cols.contains c = true
    · rw [applyFound, if_pos hc, ih]
      rw [List.map_map]
      refine List.map_congr_left ?_
      intro e _
      by_cases he : (e.src, e.dst) ∈ implied
      · simp [Edge.key, he]
      · simp [Edge.key, he]
    · rw [applyFound, if_neg hc]

/-- C6: for every Pattern in any state, clear leaves the edge table empty
while the internal interface table - every port's interface_group, io and
type tags - and the data columns are unchanged. -/
theorem c6_clear_frame (p : Pattern) :
    (p.clear).edges = [] ∧ (p.clear).interface = p.interface ∧
    (p.clear).columns = p.columns := by
  refine ⟨?_, rfl, rfl⟩
  simp only [Pattern.clear]
  rw [List.filter_eq_nil_iff]
  intro e he
  have hm : e.key ∈ p.edgeKeys := List.mem_map.mpr ⟨e, he, rfl⟩
  simp [listContainsIff, hm]

/-- C7: for every Pattern and valid interface identifiers a and b,
is_connected a b is an error when a = b, and otherwise returns true exactly
when some stored edge with a non-zero conn attribute runs from a port of
interface a to a port of interface b. -/
theorem c7_is_connected_spec (p : Pattern) (a b : Nat)
    (ha : a ∈ p.interface.interfaceIds) (hb : b ∈ p.interface.interfaceIds) :
    (a = b → p.is_connected a b = Except.error "from and to interfaces must differ") ∧
    (a ≠ b → (p.is_connected a b = Except.ok true ↔
      ∃ e ∈ p.edges, connNonzero e = true ∧
        e.src ∈ p.interface.ports a ∧ e.dst ∈ p.interface.ports b)) := by
  constructor
  · intro he
    simp [Pattern.is_connected, he]
  · intro hne
    have hguard : (p.interface.interfaceIds.contains a &&
        p.interface.interfaceIds.contains b) = true := by
      rw [Bool.and_eq_true]
      exact ⟨(listContainsIff _ _).mpr ha, (listContainsIff _ _).mpr hb⟩
    rw [Pattern.is_connected, if_neg hne, if_neg (by rw [hguard]; simp)]
    constructor
    · intro h
      rw [Except.ok.injEq] at h
      obtain ⟨e, hef, hg⟩ := List.any_eq_true.mp h
      obtain ⟨he, hcnz⟩ := List.mem_filter.mp hef
      rw [Bool.and_eq_true] at hg
      obtain ⟨h1, h2⟩ := hg
      exact ⟨e, he, hcnz, (listContainsIff _ _).mp h1, (listContainsIff _ _).mp h2⟩
    · rintro ⟨e, he, hcnz, h1, h2⟩
      rw [Except.ok.injEq]
      refine List.any_eq_true.mpr ⟨e, List.mem_filter.mpr ⟨he, hcnz⟩, ?_⟩
      rw [Bool.and_eq_true]
      exact ⟨(listContainsIff _ _).mpr h1, (listContainsIff _ _).mpr h2⟩

/-- Witness for C7 at a concrete connected pattern. -/
theorem c7_is_connected_spec_witness :
    (0 ∈ Pconn.interface.interfaceIds ∧ 1 ∈ Pconn.interface.interfaceIds ∧ (0 : Nat) ≠ 1) ∧
    (Pconn.is_connected 0 1 = Except.ok true ↔
      ∃ e ∈ Pconn.edges, connNonzero e = true ∧
        e.src ∈ Pconn.interface.ports 0 ∧ e.dst ∈ Pconn.interface.ports 1) :=
  ⟨⟨by decide, by decide, by decide⟩,
   (c7_is_connected_spec Pconn 0 1 (by decide) (by decide)).2 (by decide)⟩

/-- C9: every rejected connection write, whatever the failure, leaves the
edge-key table exactly as it was: no subset of the implied edge rows is
inserted. -/
theorem c9_rejected_write_preserves_edges (p : Pattern) (k : WriteKey) (v : Value)
    (h : (Pattern.setitem p k v).1.isSome = true) :
    (Pattern.setitem p k v).2.edgeKeys = p.edgeKeys := by
  by_cases h1 : p.in_interfaces k.src = false
  · simp [Pattern.setitem, h1]
  · by_cases h2 : p.in_interfaces k.dst = false
    · simp [Pattern.setitem, h1, h2]
    · by_cases h3 : listSetEq (p.interface.whichInt k.src) (p.interface.whichInt k.dst) = true
      · simp [Pattern.setitem, h1, h2, h3]
      · cases hc : coerceValue v k.cols p.columns with
        | none => simp [Pattern.setitem, h1, h2, h3, hc, Pattern.edgeKeys]
        | some data =>
          by_cases hf : ((impliedKeys k).all (fun kk => p.edgeKeys.contains kk)) = true
          · have hk := applyFound_keys (impliedKeys k) p.columns data p.edges
            simp only [Pattern.setitem, if_neg h1, if_neg h2, if_neg h3, hc, Pattern.edgeKeys]
            rw [if_pos (show ((impliedKeys k).all
              fun kk => (List.map Edge.key p.edges).contains kk) = true from hf)]
            exact hk
          · exfalso
            simp only [Pattern.setitem, if_neg h1, if_neg h2, if_neg h3, hc, if_neg hf] at h
            simp at h

/-- Witness for C9: a write whose source selector matches no interface port
is rejected and the edge keys are untouched. -/
theorem c9_rejected_write_preserves_edges_witness :
    (Pattern.setitem Pdemo ⟨["zz"], ["x0"], []⟩ (Value.scalar (Attr.int 1))).1.isSome = true ∧
    (Pattern.setitem Pdemo ⟨["zz"], ["x0"], []⟩ (Value.scalar (Attr.int 1))).2.edgeKeys =
      Pdemo.edgeKeys :=
  ⟨rfl, c9_rejected_write_preserves_edges Pdemo ⟨["zz"], ["x0"], []⟩
    (Value.scalar (Attr.int 1)) rfl⟩

/-- C3, counterexample: the selectors [f0, f0] and [b0] are pairwise
disjoint (no identifier of one is in the other), yet construction fails,
because the first selector expands with a duplicate identifier. -/
theorem c3_counterexample :
    pairwiseDisjoint [["f0", "f0"], ["b0"]] = true ∧
    Pattern.make [["f0", "f0"], ["b0"]] ["conn"] =
      Except.error "Duplicate interface index entries detected." :=
  ⟨rfl, rfl⟩

/-- C3, amended: construction from selectors that are not pairwise disjoint
fails and produces no Pattern; construction from pairwise-disjoint selectors
whose union expands without duplicate identifiers succeeds with an empty
edge table. -/
theorem c3_construction_disjointness (selectors : List (List PortId)) (columns : List String) :
    (pairwiseDisjoint selectors = false →
      Pattern.make selectors columns = Except.error "selectors are not disjoint") ∧
    (pairwiseDisjoint selectors = true → (selectors.flatMap (fun s => s)).Nodup →
      ∃ p, Pattern.make selectors columns = Except.ok p ∧ p.edges = []) := by
  constructor
  · intro h
    simp [Pattern.make, h]
  · intro h hnodup
    simp only [Pattern.make, h, hnodup]
    simp

/-- Witness for C3 at two disjoint duplicate-free selectors. -/
theorem c3_construction_disjointness_witness :
    (pairwiseDisjoint [["a0"], ["b0"]] = true ∧
      (([["a0"], ["b0"]] : List (List PortId)).flatMap (fun s => s)).Nodup) ∧
    (∃ p, Pattern.make [["a0"], ["b0"]] ["conn"] = Except.ok p ∧ p.edges = []) :=
  ⟨⟨rfl, by decide⟩,
   (c3_construction_disjointness [["a0"], ["b0"]] ["conn"]).2 rfl (by decide)⟩

/-- C1: the no-fan-in invariant is not enforced by connection writes.  On
the pattern over a0, a1 versus b0, the writes a0 -> b0 and a1 -> b0 both
succeed, leaving two edges onto the destination b0 (destination identifiers
are no longer duplicate-free); Pattern.__validate_index__ would reject the
resulting index with its fan-in error, but __setitem__ never invokes it. -/
theorem c1_fan_in_write_not_rejected :
    Pattern.make [["a0", "a1"], ["b0"]] ["conn"] = Except.ok Pfan ∧
    fanW1.1 = none ∧ fanW2.1 = none ∧
    fanW2.2.edgeKeys = [("a0", "b0"), ("a1", "b0")] ∧
    ¬ (fanW2.2.edgeKeys.map Prod.snd).Nodup ∧
    Pattern.validateIndex fanW2.2.edgeKeys =
      Except.error "Fan-in pattern entries detected." :=
  ⟨rfl, rfl, rfl, rfl, by decide, rfl⟩

/-- C8: a successful from_product call yields a pattern whose edge keys are
exactly the cross product of the from_sel and to_sel identifier lists: an
edge (s, d) is present exactly when s is matched by from_sel and d by
to_sel. -/
theorem c8_from_product_cross (selectors : List (List PortId)) (fromSel toSel : List PortId)
    (data : List (String × Attr)) (columns : List String) (q : Pattern)
    (h : Pattern.from_product selectors fromSel toSel data columns = Except.ok q) :
    ∀ s d : PortId, ((s, d) ∈ q.edgeKeys ↔ s ∈ fromSel ∧ d ∈ toSel) := by
  intro s d
  rw [Pattern.from_product] at h
  cases hm : Pattern.make selectors columns with
  | error m =>
    rw [hm] at h
    exact absurd h (by simp)
  | ok p =>
    rw [hm] at h
    have h2 : (if decide ((fromSel.flatMap (fun s => toSel.map (fun d => (s, d)))).Nodup) = false
        then (Except.error "Duplicate pattern entries detected." : Except String Pattern)
        else Except.ok ⟨(p.interface.ioWrite fromSel "in").ioWrite toSel "out", columns,
          (fromSel.flatMap (fun s => toSel.map (fun d => (s, d)))).map
            (fun kk => mkEdge kk data)⟩) = Except.ok q := h
    by_cases hn : decide (fromSel.flatMap (fun s => toSel.map (fun d => (s, d)))).Nodup = false
    · rw [if_pos hn] at h2
      exact absurd h2 (by simp)
    · rw [if_neg hn] at h2
      rw [Except.ok.injEq] at h2
      rw [← h2]
      simp only [Pattern.edgeKeys, List.map_map]
      have hmap : List.map (Edge.key ∘ fun kk => mkEdge kk data)
          (fromSel.flatMap (fun s => toSel.map (fun d => (s, d)))) =
          fromSel.flatMap (fun s => toSel.map (fun d => (s, d))) := by
        have := List.map_congr_left
          (l := fromSel.flatMap (fun s => toSel.map (fun d => (s, d))))
          (f := Edge.key ∘ fun kk => mkEdge kk data) (g := id)
          (fun kk _ => by cases kk; rfl)
        rw [this, List.map_id]
      rw [hmap]
      constructor
      · intro hmem
        obtain ⟨x, hx, hin⟩ := List.mem_flatMap.mp hmem
        obtain ⟨y, hy, he⟩ := List.mem_map.mp hin
        obtain ⟨e1, e2⟩ := Prod.mk.injEq .. ▸ he
        subst e1
        subst e2
        exact ⟨hx, hy⟩
      · rintro ⟨hs, hd⟩
        exact List.mem_flatMap.mpr ⟨s, hs, List.mem_map.mpr ⟨d, hd, rfl⟩⟩

/-- Witness for C8 at a concrete product pattern. -/
theorem c8_from_product_cross_witness :
    Pattern.from_product [["a0"], ["b0"]] ["a0"] ["b0"] [("conn", Attr.int 1)] ["conn"] =
      Except.ok Wprod ∧
    (("a0", "b0") ∈ Wprod.edgeKeys ↔ "a0" ∈ (["a0"] : List PortId) ∧ "b0" ∈ (["b0"] : List PortId)) :=
  ⟨rfl, c8_from_product_cross [["a0"], ["b0"]] ["a0"] ["b0"] [("conn", Attr.int 1)]
    ["conn"] Wprod rfl "a0" "b0"⟩

/-- C2, counterexample to the claim as stated: on Pdemo the write with
source selector comprising a0 and x0 and destination selector comprising x0
succeeds (the interface-identifier sets {0, 1} and {1} differ), yet
afterwards the source-matched port x0 carries io = out, not in, because the
destination tagging runs after the source tagging. -/
theorem c2_counterexample :
    Pattern.make [["a0"], ["x0", "x1"]] ["conn"] = Except.ok Pdemo ∧
    c2w.1 = none ∧
    "x0" ∈ (["a0", "x0"] : List PortId) ∧
    ∃ r ∈ c2w.2.interface.table, r.1 = "x0" ∧ r.2.ioAttr ≠ some "in" :=
  ⟨rfl, rfl, by decide, by decide⟩

theorem whichInt_nonempty_rows (i : Interface) (ids : List PortId) (g : Nat)
    (h : g ∈ i.whichInt ids) : 0 < (i.selRows ids).length := by
  obtain ⟨r, hr, _⟩ := List.mem_filterMap.mp h
  exact List.length_pos.mpr (fun hnil => by rw [hnil] at hr; exact absurd hr (by simp))

/-- C2, amended: a connection write whose two selectors both resolve to
ports of one single common interface group fails with the direction error
and mutates nothing; a write that succeeds leaves io = out on every port
matched by the destination selector and io = in on every port matched by
the source selector and not by the destination selector (destination
tagging runs second and wins on the overlap), with all matched ports
present in the interface table. -/
theorem c2_direction_check_and_io_tagging (p : Pattern) (k : WriteKey) (v : Value) :
    ((∃ g, g ∈ p.interface.whichInt k.src ∧ g ∈ p.interface.whichInt k.dst ∧
           (∀ x ∈ p.interface.whichInt k.src, x = g) ∧
           (∀ x ∈ p.interface.whichInt k.dst, x = g)) →
      Pattern.setitem p k v = (some "source and destination interfaces are the same", p)) ∧
    ((Pattern.setitem p k v).1 = none →
      (∀ r ∈ (Pattern.setitem p k v).2.interface.table,
        (r.1 ∈ k.dst → r.2.ioAttr = some "out") ∧
        (r.1 ∈ k.src → r.1 ∉ k.dst → r.2.ioAttr = some "in")) ∧
      (∀ s ∈ k.src, s ∈ (Pattern.setitem p k v).2.interface.keys) ∧
      (∀ d ∈ k.dst, d ∈ (Pattern.setitem p k v).2.interface.keys)) := by
  constructor
  · rintro ⟨g, hgs, hgd, hs, hd⟩
    have h1 : p.in_interfaces k.src = true := by
      simp only [Pattern.in_interfaces]
      exact decide_eq_true (whichInt_nonempty_rows p.interface k.src g hgs)
    have h2 : p.in_interfaces k.dst = true := by
      simp only [Pattern.in_interfaces]
      exact decide_eq_true (whichInt_nonempty_rows p.interface k.dst g hgd)
    have h3 : listSetEq (p.interface.whichInt k.src) (p.interface.whichInt k.dst) = true := by
      rw [listSetEq, Bool.and_eq_true]
      constructor
      · rw [List.all_eq_true]
        intro x hx
        rw [listContainsIff]
        rw [hs x hx]
        exact hgd
      · rw [List.all_eq_true]
        intro x hx
        rw [listContainsIff]
        rw [hd x hx]
        exact hgs
    rw [Pattern.setitem, if_neg (by simp [h1]), if_neg (by simp [h2]), if_pos h3]
  · intro h
    by_cases h1 : p.in_interfaces k.src = false
    · exfalso
      simp [Pattern.setitem, h1] at h
    · by_cases h2 : p.in_interfaces k.dst = false
      · exfalso
        simp [Pattern.setitem, h1, h2] at h
      · by_cases h3 : listSetEq (p.interface.whichInt k.src) (p.interface.whichInt k.dst) = true
        · exfalso
          simp [Pattern.setitem, h1, h2, h3] at h
        · have hintf : (Pattern.setitem p k v).2.interface =
              (p.interface.ioWrite k.src "in").ioWrite k.dst "out" := by
            cases hc : coerceValue v k.cols p.columns with
            | none => simp [Pattern.setitem, h1, h2, h3, hc]
            | some data =>
              by_cases hf : ((impliedKeys k).all (fun kk => p.edgeKeys.contains kk)) = true
              · simp only [Pattern.setitem, if_neg h1, if_neg h2, if_neg h3, hc,
                  Pattern.edgeKeys]
                rw [if_pos (show ((impliedKeys k).all
                  fun kk => (List.map Edge.key p.edges).contains kk) = true from hf)]
              · simp only [Pattern.setitem, if_neg h1, if_neg h2, if_neg h3, hc,
                  Pattern.edgeKeys]
                rw [if_neg (show ¬ ((impliedKeys k).all
                  fun kk => (List.map Edge.key p.edges).contains kk) = true from hf)]
          rw [hintf]
          refine ⟨?_, ?_, ?_⟩
          · intro r hr
            refine ⟨fun hdst => ioWrite_io_of_mem _ _ _ r hr hdst, fun hsrc hndst => ?_⟩
            have hr' : r ∈ (p.interface.ioWrite k.src "in").table :=
              ioWrite_preserved_of_not_mem _ _ _ r hr hndst
            exact ioWrite_io_of_mem _ _ _ r hr' hsrc
          · intro s hs
            exact ioWrite_keeps_keys _ _ _ s (ioWrite_covers _ _ _ s hs)
          · intro d hd
            exact ioWrite_covers _ _ _ d hd

/-- Witness for C2 at a concrete accepted write a0 -> x0 on Pdemo. -/
theorem c2_direction_check_and_io_tagging_witness :
    (Pattern.setitem Pdemo ⟨["a0"], ["x0"], []⟩ (Value.scalar (Attr.int 1))).1 = none ∧
    ((∀ r ∈ (Pattern.setitem Pdemo ⟨["a0"], ["x0"], []⟩
        (Value.scalar (Attr.int 1))).2.interface.table,
        (r.1 ∈ (["x0"] : List PortId) → r.2.ioAttr = some "out") ∧
        (r.1 ∈ (["a0"] : List PortId) → r.1 ∉ (["x0"] : List PortId) →
          r.2.ioAttr = some "in")) ∧
      (∀ s ∈ (["a0"] : List PortId), s ∈ (Pattern.setitem Pdemo ⟨["a0"], ["x0"], []⟩
        (Value.scalar (Attr.int 1))).2.interface.keys) ∧
      (∀ d ∈ (["x0"] : List PortId), d ∈ (Pattern.setitem Pdemo ⟨["a0"], ["x0"], []⟩
        (Value.scalar (Attr.int 1))).2.interface.keys)) :=
  ⟨rfl, (c2_direction_check_and_io_tagging Pdemo ⟨["a0"], ["x0"], []⟩
    (Value.scalar (Attr.int 1))).2 rfl⟩

/-- C10, counterexample to the claim as stated: the rejected overlapping
write on Pdemo (bad value shape) leaves the source-matched port x0 tagged
io = out rather than io = in, because x0 is also matched by the destination
selector. -/
theorem c10_counterexample :
    c10w.1 = some "cannot assign specified value" ∧
    "x0" ∈ (["a0", "x0"] : List PortId) ∧
    ∃ r ∈ c10w.2.interface.table, r.1 = "x0" ∧ r.2.ioAttr ≠ some "in" :=
  ⟨rfl, by decide, by decide⟩

/-- C10, amended: a write rejected because its value cannot be coerced onto
the target columns raises only after the io tags are written: the edge
table is untouched, but the interface table has been mutated - destination-
matched ports are left io = out and source-matched ports not also matched
by the destination are left io = in.  Error atomicity does not extend to
port attributes. -/
theorem c10_value_error_still_tags_ports (p : Pattern) (k : WriteKey) (v : Value)
    (h1 : p.in_interfaces k.src = true) (h2 : p.in_interfaces k.dst = true)
    (h3 : listSetEq (p.interface.whichInt k.src) (p.interface.whichInt k.dst) = false)
    (hc : coerceValue v k.cols p.columns = none) :
    (Pattern.setitem p k v).1 = some "cannot assign specified value" ∧
    (Pattern.setitem p k v).2.edges = p.edges ∧
    (Pattern.setitem p k v).2.interface =
      (p.interface.ioWrite k.src "in").ioWrite k.dst "out" ∧
    (∀ r ∈ (Pattern.setitem p k v).2.interface.table,
      (r.1 ∈ k.dst → r.2.ioAttr = some "out") ∧
      (r.1 ∈ k.src → r.1 ∉ k.dst → r.2.ioAttr = some "in")) := by
  have hs : Pattern.setitem p k v =
      (some "cannot assign specified value",
       ⟨(p.interface.ioWrite k.src "in").ioWrite k.dst "out", p.columns, p.edges⟩) := by
    simp [Pattern.setitem, h1, h2, h3, hc]
  rw [hs]
  refine ⟨rfl, rfl, rfl, ?_⟩
  intro r hr
  refine ⟨fun hdst => ioWrite_io_of_mem _ _ _ r hr hdst, fun hsrc hndst => ?_⟩
  exact ioWrite_io_of_mem _ _ _ r (ioWrite_preserved_of_not_mem _ _ _ r hr hndst) hsrc

/-- Witness for C10 at a concrete rejected write on Pdemo. -/
theorem c10_value_error_still_tags_ports_witness :
    (Pdemo.in_interfaces ["a0"] = true ∧ Pdemo.in_interfaces ["x0"] = true ∧
     listSetEq (Pdemo.interface.whichInt ["a0"]) (Pdemo.interface.whichInt ["x0"]) = false ∧
     coerceValue (Value.ordered [Attr.int 1, Attr.int 2]) [] Pdemo.columns = none) ∧
    ((Pattern.setitem Pdemo ⟨["a0"], ["x0"], []⟩
        (Value.ordered [Attr.int 1, Attr.int 2])).1 = some "cannot assign specified value" ∧
     (Pattern.setitem Pdemo ⟨["a0"], ["x0"], []⟩
        (Value.ordered [Attr.int 1, Attr.int 2])).2.edges = Pdemo.edges ∧
     (Pattern.setitem Pdemo ⟨["a0"], ["x0"], []⟩
        (Value.ordered [Attr.int 1, Attr.int 2])).2.interface =
       (Pdemo.interface.ioWrite ["a0"] "in").ioWrite ["x0"] "out" ∧
     (∀ r ∈ (Pattern.setitem Pdemo ⟨["a0"], ["x0"], []⟩
        (Value.ordered [Attr.int 1, Attr.int 2])).2.interface.table,
       (r.1 ∈ (["x0"] : List PortId) → r.2.ioAttr = some "out") ∧
       (r.1 ∈ (["a0"] : List PortId) → r.1 ∉ (["x0"] : List PortId) →
         r.2.ioAttr = some "in"))) :=
  ⟨⟨by decide, by decide, rfl, rfl⟩,
   c10_value_error_still_tags_ports Pdemo ⟨["a0"], ["x0"], []⟩
     (Value.ordered [Attr.int 1, Attr.int 2]) (by decide) (by decide) rfl rfl⟩

theorem srcIdxFromIds_subset_ports (p : Pattern) (srcInt : Nat) (srcType : Option String)
    (s : PortId) (hs : s ∈ srcIdxFromIds p srcInt srcType) :
    s ∈ p.interface.ports srcInt := by
  cases srcType with
  | none => exact hs
  | some t =>
    simp only [srcIdxFromIds, Interface.dataSelect, Interface.keys] at hs
    obtain ⟨r, hr, he⟩ := List.mem_map.mp hs
    exact List.mem_map.mpr ⟨r, (List.mem_filter.mp hr).1, he⟩

/-- C4: for every Pattern and valid interface identifiers, src_idx fails
when the source and destination interfaces coincide; otherwise it returns a
duplicate-free list containing exactly those source identifiers with at
least one edge into the selected destination ports (after the dest_type,
dest_ports and src_type filters), every entry a port of the source
interface, ordered by first occurrence in the filtered edge table (the list
is a subsequence of the edge-source projection, and earlier entries have
strictly earlier first occurrences). -/
theorem c4_src_idx_spec (p : Pattern) (srcInt destInt : Nat)
    (srcType destType : Option String) (destPorts : Option (List PortId))
    (hs : srcInt ∈ p.interface.interfaceIds) (hd : destInt ∈ p.interface.interfaceIds) :
    (srcInt = destInt →
      p.src_idx srcInt destInt srcType destType destPorts =
        Except.error "source and destination interfaces must differ") ∧
    (srcInt ≠ destInt →
      ∃ l, p.src_idx srcInt destInt srcType destType destPorts = Except.ok l ∧
        l.Nodup ∧
        (∀ s : PortId, s ∈ l ↔ ∃ e ∈ p.edges, e.src = s ∧
          s ∈ srcIdxFromIds p srcInt srcType ∧
          e.dst ∈ srcIdxToIds p destInt destType destPorts) ∧
        (∀ s ∈ l, s ∈ p.interface.ports srcInt) ∧
        l.Sublist ((srcIdxRows p srcInt destInt srcType destType destPorts).map Edge.src) ∧
        l.Pairwise (fun x y =>
          ((srcIdxRows p srcInt destInt srcType destType destPorts).map Edge.src).indexOf x <
          ((srcIdxRows p srcInt destInt srcType destType destPorts).map Edge.src).indexOf y)) := by
  constructor
  · intro he
    rw [Pattern.src_idx, if_pos he]
  · intro hne
    have hguard : (p.interface.interfaceIds.contains srcInt &&
        p.interface.interfaceIds.contains destInt) = true := by
      rw [Bool.and_eq_true]
      exact ⟨(listContainsIff _ _).mpr hs, (listContainsIff _ _).mpr hd⟩
    rw [Pattern.src_idx, if_neg hne, if_neg (by rw [hguard]; simp)]
    refine ⟨_, rfl, dedupFirst_nodup _, ?_, ?_, dedupFirst_sublist _, dedupFirst_pairwise _⟩
    · intro s
      rw [dedupFirst_mem]
      constructor
      · intro hmem
        obtain ⟨e, her, he⟩ := List.mem_map.mp hmem
        obtain ⟨hee, hpred⟩ := List.mem_filter.mp her
        rw [Bool.and_eq_true] at hpred
        obtain ⟨h1, h2⟩ := hpred
        refine ⟨e, hee, he, ?_, (listContainsIff _ _).mp h2⟩
        rw [← he]
        exact (listContainsIff _ _).mp h1
      · rintro ⟨e, hee, he, h1, h2⟩
        refine List.mem_map.mpr ⟨e, ?_, he⟩
        refine List.mem_filter.mpr ⟨hee, ?_⟩
        rw [Bool.and_eq_true]
        rw [← he] at h1
        exact ⟨(listContainsIff _ _).mpr h1, (listContainsIff _ _).mpr h2⟩
    · intro s hsl
      have hsp : s ∈ (srcIdxRows p srcInt destInt srcType destType destPorts).map Edge.src :=
        (dedupFirst_mem _ _).mp hsl
      obtain ⟨e, her, he⟩ := List.mem_map.mp hsp
      obtain ⟨_, hpred⟩ := List.mem_filter.mp her
      rw [Bool.and_eq_true] at hpred
      refine srcIdxFromIds_subset_ports p srcInt srcType s ?_
      rw [← he]
      exact (listContainsIff _ _).mp hpred.1

/-- Witness for C4 at the concrete pattern Pconn. -/
theorem c4_src_idx_spec_witness :
    (0 ∈ Pconn.interface.interfaceIds ∧ 1 ∈ Pconn.interface.interfaceIds ∧ (0 : Nat) ≠ 1) ∧
    (∃ l, Pconn.src_idx 0 1 none none none = Except.ok l ∧
      l.Nodup ∧
      (∀ s : PortId, s ∈ l ↔ ∃ e ∈ Pconn.edges, e.src = s ∧
        s ∈ srcIdxFromIds Pconn 0 none ∧ e.dst ∈ srcIdxToIds Pconn 1 none none) ∧
      (∀ s ∈ l, s ∈ Pconn.interface.ports 0) ∧
      l.Sublist ((srcIdxRows Pconn 0 1 none none none).map Edge.src) ∧
      l.Pairwise (fun x y =>
        ((srcIdxRows Pconn 0 1 none none none).map Edge.src).indexOf x <
        ((srcIdxRows Pconn 0 1 none none none).map Edge.src).indexOf y)) :=
  ⟨⟨by decide, by decide, by decide⟩,
   (c4_src_idx_spec Pconn 0 1 none none none (by decide) (by decide)).2 (by decide)⟩

theorem ioAllSet_cases (i : Interface) (h : i.ioAllSet = true)
    (r : PortId × PortRec) (hr : r ∈ i.table) :
    r.2.ioAttr = some "in" ∨ r.2.ioAttr = some "out" := by
  have hall := List.all_eq_true.mp h r hr
  rw [Bool.or_eq_true] at hall
  rcases hall with h1 | h1
  · exact Or.inl (beq_iff_eq.mp h1)
  · exact Or.inr (beq_iff_eq.mp h1)

theorem pairwise_pidLt_nodup {l : List PortId}
    (h : l.Pairwise (fun x y => pidLt x y = true)) : l.Nodup :=
  h.imp (fun hxy heq => by
    subst heq
    rw [pidLt_irrefl] at hxy
    exact Bool.false_ne_true hxy)

theorem rows_map_fst_pairwise (t : List (PortId × PortRec)) (q : PortId × PortRec → Bool)
    (h : (t.map Prod.fst).Pairwise (fun x y => pidLt x y = true)) :
    ((t.filter q).map Prod.fst).Pairwise (fun x y => pidLt x y = true) :=
  List.Pairwise.sublist (List.Sublist.map Prod.fst (List.filter_sublist t)) h

theorem sorted_nodup_finset_eq {l1 l2 : List PortId}
    (h1 : l1.Pairwise (fun x y => pidLt x y = true))
    (h2 : l2.Pairwise (fun x y => pidLt x y = true))
    (hfin : l1.toFinset = l2.toFinset) : l1 = l2 := by
  haveI : IsAntisymm PortId (fun x y => pidLt x y = true) :=
    ⟨fun x y hxy hyx => (pidLt_asymm hxy hyx).elim⟩
  exact List.eq_of_perm_of_sorted
    (List.perm_of_nodup_nodup_toFinset_eq
      (pairwise_pidLt_nodup h1) (pairwise_pidLt_nodup h2) hfin) h1 h2

/-- C5: for two attribute tables in canonical order, is_compatible a i b
(when every io attribute is set) returns true exactly when the identifier
sets of interface a and interface b are equal and every shared identifier
carries strictly opposite io values; and the call fails whenever a compared
row on either side has an unset io attribute. -/
theorem nodup_keys_eq {t : List (PortId × PortRec)} (h : (t.map Prod.fst).Nodup)
    {x y : PortId × PortRec} (hx : x ∈ t) (hy : y ∈ t) (hxy : x.1 = y.1) : x = y := by
  induction t with
  | nil => exact absurd hx (by simp)
  | cons z zs ih =>
    rw [List.map_cons, List.nodup_cons] at h
    rcases List.mem_cons.mp hx with ex | mx
    · rcases List.mem_cons.mp hy with ey | my
      · rw [ex, ey]
      · exfalso
        refine h.1 ?_
        rw [ex] at hxy
        rw [hxy]
        exact List.mem_map.mpr ⟨y, my, rfl⟩
    · rcases List.mem_cons.mp hy with ey | my
      · exfalso
        refine h.1 ?_
        rw [ey] at hxy
        rw [← hxy]
        exact List.mem_map.mpr ⟨x, mx, rfl⟩
      · exact ih h.2 mx my

/-- C5: for two attribute tables in canonical order, is_compatible a i b
(when every io attribute is set) returns true exactly when the identifier
sets of interface a and interface b are equal and every shared identifier
carries strictly opposite io values; and the call fails whenever a compared
row on either side has an unset io attribute. -/
theorem c5_is_compatible_spec (self : Interface) (a : Nat) (i : Interface) (b : Nat)
    (hA : (self.table.map Prod.fst).Pairwise (fun x y => pidLt x y = true))
    (hB : (i.table.map Prod.fst).Pairwise (fun x y => pidLt x y = true)) :
    ((self.ioAllSet && i.ioAllSet) = true →
      (self.is_compatible a i b = Except.ok true ↔
        (((self.getInterface a).table.map Prod.fst).toFinset =
           ((i.getInterface b).table.map Prod.fst).toFinset ∧
         ∀ r ∈ (self.getInterface a).table, ∀ r2 ∈ (i.getInterface b).table,
           r.1 = r2.1 →
             ((r.2.ioAttr = some "in" ∧ r2.2.ioAttr = some "out") ∨
              (r.2.ioAttr = some "out" ∧ r2.2.ioAttr = some "in"))))) ∧
    (((∃ r ∈ (self.getInterface a).table, r.2.ioAttr = none) ∨
      (∃ r ∈ (i.getInterface b).table, r.2.ioAttr = none)) →
      self.is_compatible a i b =
        Except.error "All ports must have their io attribute set.") := by
  constructor
  · intro hg
    have hga : self.ioAllSet = true := (Bool.and_eq_true .. ▸ hg).1
    have hsA : ((self.table.filter (fun r => r.2.interface == some a)).map
        Prod.fst).Pairwise (fun x y => pidLt x y = true) :=
      rows_map_fst_pairwise self.table _ hA
    have hsB : ((i.table.filter (fun r => r.2.interface == some b)).map
        Prod.fst).Pairwise (fun x y => pidLt x y = true) :=
      rows_map_fst_pairwise i.table _ hB
    have hnB : ((i.table.filter (fun r => r.2.interface == some b)).map
        Prod.fst).Nodup := pairwise_pidLt_nodup hsB
    rw [Interface.is_compatible, if_pos hg]
    simp only [Interface.getInterface]
    constructor
    · intro h
      have hcond : (self.table.filter (fun r => r.2.interface == some a)).map Prod.fst =
            (i.table.filter (fun r => r.2.interface == some b)).map Prod.fst ∧
          (self.table.filter (fun r => r.2.interface == some a)).map
            (fun r => ioFlip r.2.ioAttr) =
          (i.table.filter (fun r => r.2.interface == some b)).map
            (fun r => r.2.ioAttr) := by
        by_contra hc
        rw [if_neg hc] at h
        exact absurd (Except.ok.injEq .. ▸ h) Bool.false_ne_true
      obtain ⟨hkeys, hio⟩ := hcond
      refine ⟨by rw [hkeys], ?_⟩
      intro r hrA r2 hrB heq
      obtain ⟨iA, hiA⟩ := List.mem_iff_getElem?.mp hrA
      have h1 := congrArg (fun l => l[iA]?) hkeys
      simp only [List.getElem?_map, hiA, Option.map_some'] at h1
      have h2 := congrArg (fun l => l[iA]?) hio
      simp only [List.getElem?_map, hiA, Option.map_some'] at h2
      cases hB2 : (i.table.filter (fun r => r.2.interface == some b))[iA]? with
      | none =>
        rw [hB2] at h1
        exact absurd h1 (by simp)
      | some rB =>
        rw [hB2] at h1 h2
        simp only [Option.map_some'] at h1 h2
        have hkeyB : rB.1 = r.1 := (Option.some.injEq .. ▸ h1).symm
        have hioB : ioFlip r.2.ioAttr = rB.2.ioAttr := Option.some.injEq .. ▸ h2
        have hrBmem : rB ∈ i.table.filter (fun r => r.2.interface == some b) :=
          List.getElem?_mem hB2
        have hr2eq : r2 = rB := by
          refine nodup_keys_eq hnB hrB hrBmem ?_
          rw [← heq, hkeyB]
        have hmemA : r ∈ self.table := (List.mem_filter.mp hrA).1
        rcases ioAllSet_cases self hga r hmemA with hin | hout
        · refine Or.inl ⟨hin, ?_⟩
          rw [hr2eq, ← hioB, hin]
          rfl
        · refine Or.inr ⟨hout, ?_⟩
          rw [hr2eq, ← hioB, hout]
          rfl
    · rintro ⟨hfin, hopp⟩
      have hkeys : (self.table.filter (fun r => r.2.interface == some a)).map Prod.fst =
          (i.table.filter (fun r => r.2.interface == some b)).map Prod.fst :=
        sorted_nodup_finset_eq hsA hsB hfin
      have hlen : (self.table.filter (fun r => r.2.interface == some a)).length =
          (i.table.filter (fun r => r.2.interface == some b)).length := by
        have := congrArg List.length hkeys
        simpa using this
      have hio : (self.table.filter (fun r => r.2.interface == some a)).map
            (fun r => ioFlip r.2.ioAttr) =
          (i.table.filter (fun r => r.2.interface == some b)).map
            (fun r => r.2.ioAttr) := by
        refine List.ext_getElem? ?_
        intro n
        simp only [List.getElem?_map]
        cases hA2 : (self.table.filter (fun r => r.2.interface == some a))[n]? with
        | none =>
          have hlenA : (self.table.filter (fun r => r.2.interface == some a)).length ≤ n := by
            by_contra hlt
            rw [Nat.not_le] at hlt
            rw [List.getElem?_eq_getElem hlt] at hA2
            exact absurd hA2 (by simp)
          have hB2 : (i.table.filter (fun r => r.2.interface == some b))[n]? = none :=
            List.getElem?_eq_none (hlen ▸ hlenA)
          rw [hB2]
          rfl
        | some rA =>
          have h3 := congrArg (fun l => l[n]?) hkeys
          simp only [List.getElem?_map, hA2, Option.map_some'] at h3
          cases hB2 : (i.table.filter (fun r => r.2.interface == some b))[n]? with
          | none =>
            rw [hB2] at h3
            exact absurd h3 (by simp)
          | some rB =>
            rw [hB2] at h3
            simp only [Option.map_some'] at h3
            have hkeyn : rA.1 = rB.1 := Option.some.injEq .. ▸ h3
            have hmA : rA ∈ self.table.filter (fun r => r.2.interface == some a) :=
              List.getElem?_mem hA2
            have hmB : rB ∈ i.table.filter (fun r => r.2.interface == some b) :=
              List.getElem?_mem hB2
            simp only [Option.map_some']
            rcases hopp _ hmA _ hmB hkeyn with ⟨hx, hy⟩ | ⟨hx, hy⟩
            · rw [hx, hy]
              rfl
            · rw [hx, hy]
              rfl
      rw [if_pos ⟨hkeys, hio⟩]
  · intro hun
    rcases hun with ⟨r, hr, hio⟩ | ⟨r, hr, hio⟩
    · have hra : r ∈ self.table := by
        simp only [Interface.getInterface] at hr
        exact (List.mem_filter.mp hr).1
      have hxa : self.ioAllSet = false := by
        rw [Bool.eq_false_iff]
        intro hall
        have := List.all_eq_true.mp hall r hra
        rw [hio] at this
        simp at this
      rw [Interface.is_compatible, if_neg (by simp [hxa])]
    · have hrb : r ∈ i.table := by
        simp only [Interface.getInterface] at hr
        exact (List.mem_filter.mp hr).1
      have hxb : i.ioAllSet = false := by
        rw [Bool.eq_false_iff]
        intro hall
        have := List.all_eq_true.mp hall r hrb
        rw [hio] at this
        simp at this
      rw [Interface.is_compatible, if_neg (by simp [hxb])]
/-- Witness for C5 at two concrete compatible single-interface tables. -/
theorem c5_is_compatible_spec_witness :
    ((IcompatA.table.map Prod.fst).Pairwise (fun x y => pidLt x y = true) ∧
     (IcompatB.table.map Prod.fst).Pairwise (fun x y => pidLt x y = true) ∧
     (IcompatA.ioAllSet && IcompatB.ioAllSet) = true) ∧
    (IcompatA.is_compatible 0 IcompatB 1 = Except.ok true ↔
      (((IcompatA.getInterface 0).table.map Prod.fst).toFinset =
         ((IcompatB.getInterface 1).table.map Prod.fst).toFinset ∧
       ∀ r ∈ (IcompatA.getInterface 0).table, ∀ r' ∈ (IcompatB.getInterface 1).table,
         r.1 = r'.1 →
           ((r.2.ioAttr = some "in" ∧ r'.2.ioAttr = some "out") ∨
            (r.2.ioAttr = some "out" ∧ r'.2.ioAttr = some "in")))) :=
  ⟨⟨by decide, by decide, by decide⟩,
   (c5_is_compatible_spec IcompatA 0 IcompatB 1 (by decide) (by decide)).1 (by decide)⟩
